import Mathlib

/-!
Verification model of the Dev cog (`dev/__init__.py`): the `pagify` text
pager, `send_interactive` page delivery, `maybe_await`, `cleanup_code`,
`sanitize_output`, `get_environment`, and the REPL session loop.

Python strings are modelled as `List Char`, Python `int` as `Int` (with
`Nat` where the source value is a length or a count), and Python `None`
via `Option`.
-/

/-- Whitespace test backing `str.strip()` and the regex class `\s`.
Python additionally treats some non-ASCII code points as whitespace; every
input considered in this development is ASCII. -/
def isPySpace (c : Char) : Bool :=
  c ∈ " \t\n\r\x0b\x0c".toList

/-- Python `s.strip()`: drop leading and trailing whitespace. -/
def pyStrip (s : List Char) : List Char :=
  ((s.dropWhile isPySpace).reverse.dropWhile isPySpace).reverse

/-- Clamp a Python slice index `k` for a sequence of length `n`
(negative indices count from the end, out-of-range indices saturate). -/
def sliceIdx (n : Nat) (k : Int) : Nat :=
  (max 0 (if k < 0 then (n : Int) + k else min k (n : Int))).toNat

/-- Python `s[:k]`. -/
def pySliceTo (s : List Char) (k : Int) : List Char :=
  s.take (sliceIdx s.length k)

/-- Python `s[k:]`. -/
def pySliceFrom (s : List Char) (k : Int) : List Char :=
  s.drop (sliceIdx s.length k)

/-- Whether the substring `d` occurs in `s` starting at index `i`. -/
def matchAt (s d : List Char) (i : Nat) : Bool :=
  (s.drop i).take d.length == d

/-- Search downward from start index `i` for the rightmost occurrence of
`d` in `s` at an index `≥ 1`; `-1` when there is none. -/
def rfindDown (s d : List Char) : Nat → Int
  | 0 => -1
  | i + 1 => if matchAt s d (i + 1) then ((i + 1 : Nat) : Int) else rfindDown s d i

/-- Python `s.rfind(d, 1, e)`: the largest index `i ≥ 1` with
`i + len d ≤ clamp e` at which `d` occurs in `s`, and `-1` otherwise
(`dev/__init__.py` line 59 always calls `rfind` with start 1). -/
def pyRfind (s d : List Char) (e : Int) : Int :=
  rfindDown s d (sliceIdx s.length e - d.length)

/-- `next((x for x in l if x > 0), -1)` over the per-delimiter `rfind`
results (`pagify`, priority branch, line 61). -/
def pickPriority : List Int → Int
  | [] => -1
  | x :: xs => if x > 0 then x else pickPriority xs

/-- Python `max` over the nonempty sequence `x :: xs`
(`pagify`, non-priority branch, line 63). -/
def pickMax (x : Int) (xs : List Int) : Int :=
  xs.foldl max x

/-- One split-point computation of `pagify` (lines 59-64 up to the `-1`
replacement): `none` models the `ValueError` Python's `max` raises on an
empty sequence (priority `false` with an empty delimiter list). -/
def closestDelim (s : List Char) (delims : List (List Char)) (priority : Bool)
    (limit : Int) : Option Int :=
  let ds := delims.map (fun d => pyRfind s d limit)
  if priority then some (pickPriority ds)
  else
    match ds with
    | [] => none
    | x :: xs => some (pickMax x xs)

/-- `closest_delim if closest_delim != -1 else this_page_len` (line 64). -/
def pagifyCut (cdRaw limit : Int) : Int :=
  if cdRaw = -1 then limit else cdRaw

/-- The `while` loop of `pagify` (lines 57-71), fuelled.  The result
collects every candidate segment, in order, before the blank filter of
lines 66 and 70 is applied: `none` means the fuel ran out with the loop
still running, `some (segs, false)` means Python raised `ValueError`
(empty `max`) after producing `segs`, and `some (segs, true)` a normal
finish whose final element is the `in_text` left when the loop guard
failed. -/
def pagifySegs (delims : List (List Char)) (priority : Bool) (limit : Int) :
    Nat → List Char → Option (List (List Char) × Bool)
  | 0, _ => none
  | fuel + 1, s =>
    if (s.length : Int) > limit then
      match closestDelim s delims priority limit with
      | none => some ([], false)
      | some cdRaw =>
        match pagifySegs delims priority limit fuel (pySliceFrom s (pagifyCut cdRaw limit)) with
        | none => none
        | some (segs, ok) => some (pySliceTo s (pagifyCut cdRaw limit) :: segs, ok)
    else some ([s], true)

/-- `len(x.strip()) > 0` is false: segment dropped by lines 66 / 70. -/
def isBlank (s : List Char) : Bool :=
  pyStrip s == []

/-- `pagify(text, delims, priority=…, shorten_by=…, page_length=…)`
(lines 47-71).  The yielded pages are the non-blank segments; the `Bool`
records whether the generator finished normally (see `pagifySegs`).  The
fuel `text.length + 1` is sufficient whenever the effective limit
`page_length - shorten_by` is at least 1 (`pagifySegs_complete`). -/
def pagify (text : List Char) (delims : List (List Char)) (priority : Bool)
    (shorten_by page_length : Int) : Option (List (List Char) × Bool) :=
  match pagifySegs delims priority (page_length - shorten_by) (text.length + 1) text with
  | none => none
  | some (segs, ok) => some (segs.filter (fun p => !isBlank p), ok)






theorem sliceIdx_le (n : Nat) (k : Int) : sliceIdx n k ≤ n := by
  unfold sliceIdx
  rw [Int.toNat_le]
  apply max_le
  · exact Int.ofNat_nonneg n
  · split_ifs with h
    · omega
    · exact min_le_right _ _

theorem sliceIdx_le_of_nonneg {n : Nat} {k : Int} (h0 : 0 ≤ k) :
    (sliceIdx n k : Int) ≤ k := by
  unfold sliceIdx
  rw [if_neg (by omega), Int.toNat_of_nonneg (le_max_left 0 _)]
  exact max_le h0 (min_le_left _ _)

theorem sliceIdx_of_nonneg_le {n : Nat} {k : Int} (h0 : 0 ≤ k) (h : k ≤ (n : Int)) :
    (sliceIdx n k : Int) = k := by
  unfold sliceIdx
  rw [if_neg (by omega), min_eq_left h, max_eq_right h0, Int.toNat_of_nonneg h0]

theorem rfindDown_spec (s d : List Char) (i : Nat) :
    rfindDown s d i = -1 ∨ (1 ≤ rfindDown s d i ∧ rfindDown s d i ≤ (i : Int)) := by
  induction i with
  | zero => exact Or.inl rfl
  | succ n ih =>
    unfold rfindDown
    by_cases h : matchAt s d (n + 1) = true
    · rw [if_pos h]
      right
      constructor <;> omega
    · rw [if_neg h]
      rcases ih with h1 | ⟨h1, h2⟩
      · exact Or.inl h1
      · right
        refine ⟨h1, ?_⟩
        omega

theorem pyRfind_spec (s d : List Char) (limit : Int) (h0 : 0 ≤ limit) :
    pyRfind s d limit = -1 ∨ (1 ≤ pyRfind s d limit ∧ pyRfind s d limit ≤ limit) := by
  unfold pyRfind
  rcases rfindDown_spec s d (sliceIdx s.length limit - d.length) with h | ⟨h1, h2⟩
  · exact Or.inl h
  · right
    refine ⟨h1, le_trans h2 ?_⟩
    have hc : ((sliceIdx s.length limit - d.length : Nat) : Int) ≤
        (sliceIdx s.length limit : Int) := by
      exact_mod_cast Nat.sub_le _ _
    have hs := sliceIdx_le_of_nonneg (n := s.length) h0
    omega

theorem pickPriority_spec (l : List Int) :
    pickPriority l = -1 ∨ (pickPriority l ∈ l ∧ 0 < pickPriority l) := by
  induction l with
  | nil => exact Or.inl rfl
  | cons x xs ih =>
    unfold pickPriority
    by_cases h : x > 0
    · rw [if_pos h]
      exact Or.inr ⟨List.mem_cons_self x xs, h⟩
    · rw [if_neg h]
      rcases ih with h1 | ⟨h1, h2⟩
      · exact Or.inl h1
      · exact Or.inr ⟨List.mem_cons_of_mem _ h1, h2⟩

theorem pickMax_mem (xs : List Int) : ∀ x, pickMax x xs = x ∨ pickMax x xs ∈ xs := by
  induction xs with
  | nil => exact fun x => Or.inl rfl
  | cons y ys ih =>
    intro x
    have hstep : pickMax x (y :: ys) = pickMax (max x y) ys := rfl
    rcases ih (max x y) with h | h
    · rcases max_choice x y with hm | hm
      · left
        rw [hstep, h, hm]
      · right
        rw [hstep, h, hm]
        exact List.mem_cons_self y ys
    · right
      rw [hstep]
      exact List.mem_cons_of_mem _ h

theorem closestDelim_some (s : List Char) (delims : List (List Char)) (priority : Bool)
    (limit : Int) (h0 : 0 ≤ limit) (hD : delims ≠ [] ∨ priority = true) :
    ∃ cdRaw, closestDelim s delims priority limit = some cdRaw
      ∧ (cdRaw = -1 ∨ (1 ≤ cdRaw ∧ cdRaw ≤ limit)) := by
  have hmem : ∀ x ∈ delims.map (fun d => pyRfind s d limit),
      x = -1 ∨ (1 ≤ x ∧ x ≤ limit) := by
    intro x hx
    rcases List.mem_map.mp hx with ⟨d, _, rfl⟩
    exact pyRfind_spec s d limit h0
  by_cases hp : priority = true
  · refine ⟨pickPriority (delims.map fun d => pyRfind s d limit), ?_, ?_⟩
    · simp [closestDelim, hp]
    · rcases pickPriority_spec (delims.map fun d => pyRfind s d limit) with h | ⟨h1, h2⟩
      · exact Or.inl h
      · rcases hmem _ h1 with h3 | h3
        · omega
        · exact Or.inr h3
  · have hd : delims ≠ [] := hD.resolve_right hp
    cases delims with
    | nil => exact absurd rfl hd
    | cons d rest =>
      refine ⟨pickMax (pyRfind s d limit) (rest.map fun d => pyRfind s d limit), ?_, ?_⟩
      · simp [closestDelim, hp]
      · have hm := pickMax_mem (rest.map fun d => pyRfind s d limit) (pyRfind s d limit)
        have hin : pickMax (pyRfind s d limit) (rest.map fun d => pyRfind s d limit) ∈
            (d :: rest).map (fun d => pyRfind s d limit) := by
          rw [List.map_cons]
          rcases hm with h | h
          · rw [h]
            exact List.mem_cons_self _ _
          · exact List.mem_cons_of_mem _ h
        exact hmem _ hin

theorem pagifySegs_succ_pos (delims : List (List Char)) (priority : Bool) {limit : Int}
    {s : List Char} (n : Nat) (hgt : (s.length : Int) > limit) {cdRaw : Int}
    (hcd : closestDelim s delims priority limit = some cdRaw) :
    pagifySegs delims priority limit (n + 1) s =
      (match pagifySegs delims priority limit n (pySliceFrom s (pagifyCut cdRaw limit)) with
       | none => none
       | some (segs, ok) => some (pySliceTo s (pagifyCut cdRaw limit) :: segs, ok)) := by
  simp only [pagifySegs]
  rw [if_pos hgt, hcd]

theorem pagifySegs_succ_neg (delims : List (List Char)) (priority : Bool) {limit : Int}
    {s : List Char} (n : Nat) (hle : ¬((s.length : Int) > limit)) :
    pagifySegs delims priority limit (n + 1) s = some ([s], true) := by
  simp only [pagifySegs]
  rw [if_neg hle]

theorem pagifySegs_complete (delims : List (List Char)) (priority : Bool) (limit : Int)
    (hL : 1 ≤ limit) (hD : delims ≠ [] ∨ priority = true) :
    ∀ fuel s, s.length < fuel →
      ∃ segs, pagifySegs delims priority limit fuel s = some (segs, true)
        ∧ segs.flatten = s ∧ ∀ p ∈ segs, (p.length : Int) ≤ limit := by
  intro fuel
  induction fuel with
  | zero => exact fun s hs => absurd hs (Nat.not_lt_zero _)
  | succ n ih =>
    intro s hs
    by_cases hgt : (s.length : Int) > limit
    · obtain ⟨cdRaw, hcd, hbound⟩ := closestDelim_some s delims priority limit (by omega) hD
      have hcd1 : 1 ≤ pagifyCut cdRaw limit ∧ pagifyCut cdRaw limit ≤ limit := by
        unfold pagifyCut
        split_ifs with h
        · exact ⟨hL, le_refl _⟩
        · rcases hbound with h1 | h1
          · exact absurd h1 h
          · exact h1
      have hslice : (sliceIdx s.length (pagifyCut cdRaw limit) : Int) = pagifyCut cdRaw limit :=
        sliceIdx_of_nonneg_le (by omega) (by omega)
      have hl1 : 1 ≤ sliceIdx s.length (pagifyCut cdRaw limit) := by omega
      have hrest : (pySliceFrom s (pagifyCut cdRaw limit)).length =
          s.length - sliceIdx s.length (pagifyCut cdRaw limit) := by
        simp [pySliceFrom]
      have hltn : (pySliceFrom s (pagifyCut cdRaw limit)).length < n := by
        rw [hrest]
        omega
      obtain ⟨segs', heq', hjoin', hlenp'⟩ := ih (pySliceFrom s (pagifyCut cdRaw limit)) hltn
      refine ⟨pySliceTo s (pagifyCut cdRaw limit) :: segs', ?_, ?_, ?_⟩
      · rw [pagifySegs_succ_pos delims priority n hgt hcd, heq']
      · rw [List.flatten_cons, hjoin']
        exact List.take_append_drop _ _
      · intro p hp
        rcases List.mem_cons.mp hp with rfl | hp'
        · have hto : (pySliceTo s (pagifyCut cdRaw limit)).length =
              sliceIdx s.length (pagifyCut cdRaw limit) := by
            simp [pySliceTo]
            exact sliceIdx_le _ _
          rw [hto, hslice]
          exact hcd1.2
        · exact hlenp' p hp'
    · refine ⟨[s], pagifySegs_succ_neg delims priority n hgt, by simp, ?_⟩
      intro p hp
      rw [List.mem_singleton.mp hp]
      omega

/-- Claim C1 (corrected): for text `T`, delimiters `D`, page length `L` and
shorten-by `S` with `L - S ≥ 1` — and provided `D` is non-empty or
`priority` is true, since otherwise line 63's `max` over an empty sequence
raises `ValueError` — the generator finishes, every yielded page has raw
length at most `L - S`, and the yielded pages are, in order, exactly the
non-blank segments of a decomposition of `T`: concatenating the pages
reproduces `T` except for the wholly-blank segments that were dropped
(no other whitespace is lost at page boundaries). -/
theorem pagify_spec (text : List Char) (delims : List (List Char)) (priority : Bool)
    (shorten_by page_length : Int) (hL : 1 ≤ page_length - shorten_by)
    (hD : delims ≠ [] ∨ priority = true) :
    ∃ segs : List (List Char),
      pagify text delims priority shorten_by page_length =
        some (segs.filter (fun p => !isBlank p), true)
      ∧ segs.flatten = text
      ∧ ∀ p ∈ segs, (p.length : Int) ≤ page_length - shorten_by := by
  obtain ⟨segs, h1, h2, h3⟩ :=
    pagifySegs_complete delims priority (page_length - shorten_by) hL hD
      (text.length + 1) text (Nat.lt_succ_self _)
  exact ⟨segs, by simp [pagify, h1], h2, h3⟩

/-- Witness for `pagify_spec` at `pagify("ab c", [" "], priority=False,
shorten_by=0, page_length=3)`. -/
theorem pagify_spec_witness :
    (1 : Int) ≤ 3 - 0 ∧
    ∃ segs : List (List Char),
      pagify "ab c".toList [" ".toList] false 0 3 =
        some (segs.filter (fun p => !isBlank p), true)
      ∧ segs.flatten = "ab c".toList
      ∧ ∀ p ∈ segs, (p.length : Int) ≤ 3 - 0 :=
  ⟨by decide,
   pagify_spec "ab c".toList [" ".toList] false 0 3 (by decide) (Or.inl (by decide))⟩

/-- Counterexample for claim C1 as stated: with an empty delimiter list and
`priority=False`, the very first iteration evaluates `max()` on an empty
sequence and raises `ValueError` (modelled by the `false` flag) after
yielding no page at all, so the yielded pages cannot reproduce the
non-blank text `"ab"`. -/
theorem pagify_no_delims_cex :
    pagify "ab".toList [] false 0 1 = some ([], false)
    ∧ ([] : List (List Char)).flatten ≠ "ab".toList := by decide

/-- Claim C4 (corrected): `pagify("line1\nline2\nline3", ["\n"],
priority=True, shorten_by=S, page_length=12+S)` splits at the *last*
eligible newline inside the limit (index 11), and the delimiter stays
attached to the front of the remainder, so the pages are
`["line1\nline2", "\nline3"]` — not `["line1\n", "line2\n", "line3"]`. -/
theorem pagify_newline_example (S : Int) :
    pagify "line1\nline2\nline3".toList ["\n".toList] true S (12 + S) =
      some (["line1\nline2".toList, "\nline3".toList], true) := by
  have h : 12 + S - S = (12 : Int) := by ring
  unfold pagify
  rw [h]
  decide

/-- Counterexample for claim C4 as stated (at `S = 0`): the generator
yields `["line1\nline2", "\nline3"]`, not the claimed
`["line1\n", "line2\n", "line3"]`. -/
theorem pagify_newline_example_cex :
    pagify "line1\nline2\nline3".toList ["\n".toList] true 0 12 =
      some (["line1\nline2".toList, "\nline3".toList], true)
    ∧ pagify "line1\nline2\nline3".toList ["\n".toList] true 0 12 ≠
      some (["line1\n".toList, "line2\n".toList, "line3".toList], true) := by
  decide

/-- Claim C5 (code bug): `pagify` neither rejects nor clamps a
non-positive effective limit.  With `page_length=1, shorten_by=1`
(effective limit 0) on the text `"ab"`, every iteration recomputes split
index 0 and leaves `in_text` unchanged, so the loop never terminates and
never yields: no amount of fuel finishes, and the packaged call returns
`none` (fuel exhausted). -/
theorem pagify_zero_limit_diverges :
    (∀ fuel, pagifySegs ["\n".toList] false 0 fuel "ab".toList = none)
    ∧ pagify "ab".toList ["\n".toList] false 1 1 = none := by
  have hall : ∀ fuel, pagifySegs ["\n".toList] false 0 fuel "ab".toList = none := by
    intro fuel
    induction fuel with
    | zero => rfl
    | succ n ih =>
      rw [pagifySegs_succ_pos ["\n".toList] false n (by decide)
          (show closestDelim "ab".toList ["\n".toList] false 0 = some (-1) from by decide)]
      rw [show pySliceFrom "ab".toList (pagifyCut (-1) 0) = "ab".toList from by decide]
      rw [ih]
  refine ⟨hall, ?_⟩
  unfold pagify
  rw [show (1 : Int) - 1 = 0 from by decide]
  rw [hall]

/-- Observable channel effects of one `send_interactive` call
(`dev/__init__.py` lines 74-123).  Sends of a page or of the continuation
prompt, and the best-effort deletions (whose own `HTTPException` failures
the code suppresses with `contextlib.suppress` / the `AttributeError`
fallback). -/
inductive DeliveryAction
  | sentPage (content : List Char)
  | sentPrompt (remaining : Nat)
  | deletedPrompt
  | deletedPromptAndReply
  deriving DecidableEq

/-- Rendering of one page (lines 81-84): plain, or wrapped in a labelled
code fence when `box_lang` is given. -/
def renderPage (boxLang : Option (List Char)) (page : List Char) : List Char :=
  match boxLang with
  | none => page
  | some lang => "```".toList ++ lang ++ "\n".toList ++ page ++ "\n".toList ++ "```".toList

/-- The `for idx, page in enumerate(messages, 1)` loop of
`send_interactive` (lines 80-123).  `gapReply idx` tells whether a
matching `more` reply arrived before the timeout at the gap after the
`idx`-th page (`false` models `asyncio.TimeoutError` from
`ctx.bot.wait_for`, which the code catches: it best-effort deletes the
prompt and `break`s).  Returns `ret` (the handles of the sent pages) and
the channel action trace. -/
def send_interactive_go (boxLang : Option (List Char)) (gapReply : Nat → Bool) :
    Nat → List (List Char) → List (List Char) × List DeliveryAction
  | _, [] => ([], [])
  | idx, page :: rest =>
    let msg := renderPage boxLang page
    match rest with
    | [] => ([msg], [.sentPage msg])
    | _ :: _ =>
      if gapReply idx then
        let next := send_interactive_go boxLang gapReply (idx + 1) rest
        (msg :: next.1,
         .sentPage msg :: .sentPrompt rest.length :: .deletedPromptAndReply :: next.2)
      else ([msg], [.sentPage msg, .sentPrompt rest.length, .deletedPrompt])

/-- `send_interactive(ctx, messages, box_lang, timeout)` (lines 74-123):
the function always returns normally (a timeout is caught, never
re-raised), with the list of sent messages and the action trace. -/
def send_interactive (messages : List (List Char)) (boxLang : Option (List Char))
    (gapReply : Nat → Bool) : List (List Char) × List DeliveryAction :=
  send_interactive_go boxLang gapReply 1 messages

/-- Claim C6 (confirmed): `send_interactive` with 3 pages and no matching
reply before the timeout sends exactly the first page, sends the
continuation prompt, best-effort deletes the prompt on timeout, never
sends the remaining 2 pages, and returns normally (the model is a total
function: `asyncio.TimeoutError` is caught at line 110 and never
propagates). -/
theorem send_interactive_timeout (p1 p2 p3 : List Char) (boxLang : Option (List Char)) :
    send_interactive [p1, p2, p3] boxLang (fun _ => false) =
      ([renderPage boxLang p1],
       [.sentPage (renderPage boxLang p1), .sentPrompt 2, .deletedPrompt]) := rfl

/-- `maybe_await`'s argument universe: a value is either a plain object or
an awaitable wrapping the value `await` resolves it to. -/
inductive PyVal
  | plain (n : Nat)
  | awaitable (v : PyVal)
  deriving DecidableEq

/-- `inspect.isawaitable` on the model. -/
def isawaitable : PyVal → Bool
  | .plain _ => false
  | .awaitable _ => true

/-- One `await` step (only ever applied to awaitables in the source). -/
def awaitOnce : PyVal → PyVal
  | .awaitable v => v
  | .plain n => .plain n

/-- The `for i in range(2)` loop of `maybe_await` (lines 151-157). -/
def maybe_await_loop : Nat → PyVal → PyVal
  | 0, c => c
  | k + 1, c => if isawaitable c then maybe_await_loop k (awaitOnce c) else c

/-- `maybe_await(coro)` (lines 150-157): resolve an awaitable at most
twice, then return the value as-is. -/
def maybe_await (coro : PyVal) : PyVal :=
  maybe_await_loop 2 coro

/-- Claim C8 (confirmed): `maybe_await` returns a non-awaitable value
unchanged, resolves a singly-wrapped awaitable to its value, and after
two resolution steps returns the result as-is even when it is still
awaitable (the third conjunct holds for arbitrary `v`, awaitable or
not). -/
theorem maybe_await_spec (n : Nat) (v w : PyVal) :
    maybe_await (.plain n) = .plain n
    ∧ maybe_await (.awaitable (.plain n)) = .plain n
    ∧ maybe_await (.awaitable (.awaitable v)) = v
    ∧ (isawaitable w = false → maybe_await w = w) := by
  refine ⟨rfl, rfl, rfl, ?_⟩
  intro h
  cases w with
  | plain m => rfl
  | awaitable u => simp [isawaitable] at h

/-- Witness for `maybe_await_spec` at the concrete value `plain 0`. -/
theorem maybe_await_spec_witness :
    isawaitable (.plain 0) = false ∧ maybe_await (.plain 0) = .plain 0 :=
  ⟨rfl, (maybe_await_spec 0 (.plain 0) (.plain 0)).2.2.2 rfl⟩

/-- `re.sub(pat, repl, s, count)` for the *literal* pattern `pat` (the
source escapes the token with `re.escape`, so no metacharacters remain):
scan left to right, replacing at most `count` non-overlapping,
case-sensitive occurrences.  The extra `Nat` is fuel, instantiated with
the scanned string's length, which every step strictly decreases;
Python's empty-pattern insertion behaviour is unreachable here (a bot
token is non-empty), so an empty pattern never matches in the model. -/
def subCountGo (pat repl : List Char) : Nat → Nat → List Char → List Char
  | 0, _, s => s
  | _ + 1, _, [] => []
  | _ + 1, 0, c :: cs => c :: cs
  | fuel + 1, count + 1, c :: cs =>
    if pat ≠ [] ∧ pat.isPrefixOf (c :: cs) then
      repl ++ subCountGo pat repl fuel count ((c :: cs).drop pat.length)
    else c :: subCountGo pat repl fuel (count + 1) cs

/-- `re.sub` with a literal pattern and a replacement count. -/
def subCount (pat repl : List Char) (count : Nat) (s : List Char) : List Char :=
  subCountGo pat repl s.length count s

def sanitize_output (token input_ : List Char) : List Char :=
  subCount token "[EXPUNGED]".toList 2 input_




/-- Claim C3 (code bug): `sanitize_output` passes `re.I` (value 2)
positionally into `re.sub`'s `count` parameter instead of `flags`
(line 190), so matching is case-sensitive and capped at 2 replacements.
The claim's own example only works because its case matches exactly: an
input whose case differs from the secret is returned unchanged, and a
third same-case occurrence survives. -/
theorem sanitize_output_case_sensitive :
    sanitize_output "ABC123".toList "token=abc123 rest".toList =
      "token=abc123 rest".toList
    ∧ "token=abc123 rest".toList ≠ "token=[EXPUNGED] rest".toList
    ∧ sanitize_output "ABC123".toList "token=ABC123 rest".toList =
      "token=[EXPUNGED] rest".toList
    ∧ sanitize_output "A".toList "AAA".toList = "[EXPUNGED][EXPUNGED]A".toList := by
  decide

/-- Lookahead `(?=\s)` at index `i`: there is a character there and it is
whitespace. -/
def isPySpaceAt (s : List Char) (i : Nat) : Bool :=
  match s.drop i with
  | [] => false
  | c :: _ => isPySpace c

/-- `START_CODE_BLOCK_RE.sub("", s)` (line 44, used at line 164): the
regex `^((```py(thon)?)(?=\s)|(```))` removes a leading ` ```python ` or
` ```py ` when followed by whitespace (the lookahead), else a bare
` ``` `.  Alternation order and the greedy `(thon)?` give the
longest-first behaviour below. -/
def startCodeBlockSub (s : List Char) : List Char :=
  if "```python".toList.isPrefixOf s ∧ isPySpaceAt s 9 then s.drop 9
  else if "```py".toList.isPrefixOf s ∧ isPySpaceAt s 5 then s.drop 5
  else if "```".toList.isPrefixOf s then s.drop 3
  else s

/-- `cleanup_code(content)` (lines 159-167): strip a fenced code block
(` ``` … ``` `) via the regex plus `[:-3]`, else `content.strip("` \n")`. -/
def cleanup_code (content : List Char) : List Char :=
  if "```".toList.isPrefixOf content ∧ "```".toList.isSuffixOf content then
    (startCodeBlockSub content).take ((startCodeBlockSub content).length - 3)
  else
    ((content.dropWhile (· ∈ "` \n".toList)).reverse.dropWhile
        (· ∈ "` \n".toList)).reverse




/-- A value bound in the execution environment: an ordinary object, a
captured exception (`get_environment` lines 210-212 bind the raised
exception itself), or Python `None`. -/
inductive DevEnvVal (V E : Type)
  | val (v : V)
  | exn (e : E)
  | pynone
  deriving DecidableEq

/-- The `ctx`-derived objects bound by `get_environment` (lines 193-199). -/
structure DevCtx (V : Type) where
  bot : V
  ctxObj : V
  channel : V
  author : V
  guild : V
  message : V
  deriving DecidableEq

/-- The module-level objects bound by `get_environment` (lines 200-205)
plus the `__builtins__` object the REPL adds (line 335). -/
structure DevModules (V : Type) where
  asyncioMod : V
  aiohttpMod : V
  discordMod : V
  commandsMod : V
  mainName : V
  builtinsObj : V
  deriving DecidableEq

/-- Python dict assignment `env[k] = v` on an insertion-ordered
association list: overwrite the existing entry in place, else append. -/
def dictSet {V E : Type} :
    List (String × DevEnvVal V E) → String → DevEnvVal V E → List (String × DevEnvVal V E)
  | [], k, v => [(k, v)]
  | p :: rest, k, v => if p.1 == k then (k, v) :: rest else p :: dictSet rest k v

/-- Python dict lookup `env[k]`. -/
def dictGet {V E : Type} (env : List (String × DevEnvVal V E)) (k : String) :
    Option (DevEnvVal V E) :=
  (env.find? (fun p => p.1 == k)).map Prod.snd

theorem dictGet_dictSet_self {V E : Type} (env : List (String × DevEnvVal V E))
    (k : String) (v : DevEnvVal V E) : dictGet (dictSet env k v) k = some v := by
  induction env with
  | nil =>
    unfold dictGet dictSet
    rw [List.find?_cons_of_pos _ (by simp)]
    rfl
  | cons p rest ih =>
    by_cases h : p.1 = k
    · unfold dictGet
      simp only [dictSet, h]
      rw [if_pos (by simp), List.find?_cons_of_pos _ (by simp)]
      rfl
    · unfold dictGet
      simp only [dictSet]
      rw [if_neg (by simpa using h), List.find?_cons_of_neg _ (by simpa using h)]
      exact ih

theorem dictGet_dictSet_ne {V E : Type} (env : List (String × DevEnvVal V E))
    {k k' : String} (v : DevEnvVal V E) (h : k' ≠ k) :
    dictGet (dictSet env k v) k' = dictGet env k' := by
  induction env with
  | nil =>
    unfold dictGet dictSet
    rw [List.find?_cons_of_neg _ (by simpa using Ne.symm h)]
  | cons p rest ih =>
    by_cases hp : p.1 = k
    · unfold dictGet
      simp only [dictSet, hp]
      rw [if_pos (by simp),
          List.find?_cons_of_neg _ (by simpa using Ne.symm h),
          List.find?_cons_of_neg _ (by simpa [hp] using Ne.symm h)]
    · unfold dictGet
      simp only [dictSet]
      rw [if_neg (by simpa using hp)]
      by_cases hp' : p.1 = k'
      · rw [List.find?_cons_of_pos _ (by simpa using hp'),
            List.find?_cons_of_pos _ (by simpa using hp')]
      · rw [List.find?_cons_of_neg _ (by simpa using hp'),
            List.find?_cons_of_neg _ (by simpa using hp')]
        exact ih

/-- The environment-extension outcome (lines 207-212): a provider that
raises has the exception itself bound as the value (after
`traceback.clear_frames`, a traceback-only mutation with no counterpart
in the model); a normal return is bound as-is. -/
def extValue {V E : Type} (c : DevCtx V) (f : DevCtx V → Except E V) : DevEnvVal V E :=
  match f c with
  | .ok v => .val v
  | .error e => .exn e

/-- The environment literal of `get_environment` (lines 193-206), in
source order; `"_"` is bound to `self._last_result` (`None` at cog
construction, line 142). -/
def baseEnv {V E : Type} (m : DevModules V) (c : DevCtx V) (lastResult : Option V) :
    List (String × DevEnvVal V E) :=
  [("bot", .val c.bot), ("ctx", .val c.ctxObj), ("channel", .val c.channel),
   ("author", .val c.author), ("guild", .val c.guild), ("message", .val c.message),
   ("asyncio", .val m.asyncioMod), ("aiohttp", .val m.aiohttpMod),
   ("discord", .val m.discordMod), ("commands", .val m.commandsMod),
   ("_", match lastResult with | some v => .val v | none => .pynone),
   ("__name__", .val m.mainName)]

/-- `get_environment(self, ctx)` (lines 192-213): the base bindings, then
one `env[name] = …` per registered extension, a raising provider
contributing its exception as the bound value. -/
def get_environment {V E : Type} (m : DevModules V) (c : DevCtx V) (lastResult : Option V)
    (exts : List (String × (DevCtx V → Except E V))) : List (String × DevEnvVal V E) :=
  exts.foldl (fun env p => dictSet env p.1 (extValue c p.2)) (baseEnv m c lastResult)

theorem foldl_dictSet_not_mem {V E : Type} (c : DevCtx V)
    (exts : List (String × (DevCtx V → Except E V))) :
    ∀ env : List (String × DevEnvVal V E), ∀ k, k ∉ exts.map Prod.fst →
      dictGet (exts.foldl (fun env p => dictSet env p.1 (extValue c p.2)) env) k =
        dictGet env k := by
  induction exts with
  | nil => intro env k _; rfl
  | cons q rest ih =>
    intro env k hk
    rw [List.map_cons, List.mem_cons] at hk
    push_neg at hk
    rw [List.foldl_cons, ih _ k hk.2]
    exact dictGet_dictSet_ne env _ hk.1

theorem foldl_dictSet_mem {V E : Type} (c : DevCtx V)
    (exts : List (String × (DevCtx V → Except E V))) :
    ∀ env : List (String × DevEnvVal V E), (exts.map Prod.fst).Nodup →
      ∀ p ∈ exts,
        dictGet (exts.foldl (fun env p => dictSet env p.1 (extValue c p.2)) env) p.1 =
          some (extValue c p.2) := by
  induction exts with
  | nil => intro env _ p hp; exact absurd hp (List.not_mem_nil p)
  | cons q rest ih =>
    intro env hnd p hp
    rw [List.map_cons, List.nodup_cons] at hnd
    rcases List.mem_cons.mp hp with rfl | hp'
    · rw [List.foldl_cons, foldl_dictSet_not_mem c rest _ p.1 hnd.1]
      exact dictGet_dictSet_self env _ _
    · rw [List.foldl_cons]
      exact ih _ hnd.2 p hp'

/-- Claim C9 (confirmed): with distinct extension names (guaranteed in the
source, where `env_extensions` is a dict), every registered provider is
invoked and its name is bound in the environment — to the raised
exception when the provider fails, which is captured rather than
propagated (`get_environment` is total) — and every binding whose name no
extension overrides is still produced as in the base environment. -/
theorem get_environment_spec {V E : Type} (m : DevModules V) (c : DevCtx V)
    (lastResult : Option V) (exts : List (String × (DevCtx V → Except E V)))
    (hnd : (exts.map Prod.fst).Nodup) :
    (∀ p ∈ exts,
      dictGet (get_environment m c lastResult exts) p.1 = some (extValue c p.2))
    ∧ ∀ k, k ∉ exts.map Prod.fst →
        dictGet (get_environment m c lastResult exts) k =
          dictGet (baseEnv m c lastResult) k :=
  ⟨fun p hp => foldl_dictSet_mem c exts _ hnd p hp,
   fun k hk => foldl_dictSet_not_mem c exts _ k hk⟩

/-- Witness for `get_environment_spec`: one raising provider named
`"boom"`; its exception value `3` is bound, and the untouched base
binding `"bot"` survives. -/
theorem get_environment_spec_witness :
    dictGet (get_environment (V := Nat) (E := Nat) ⟨0, 1, 2, 3, 4, 5⟩ ⟨6, 7, 8, 9, 10, 11⟩
        (some 42) [("boom", fun _ => Except.error 3)]) "boom" = some (DevEnvVal.exn 3)
    ∧ dictGet (get_environment (V := Nat) (E := Nat) ⟨0, 1, 2, 3, 4, 5⟩ ⟨6, 7, 8, 9, 10, 11⟩
        (some 42) [("boom", fun _ => Except.error 3)]) "bot" = some (DevEnvVal.val 6) := by
  have h := get_environment_spec (V := Nat) (E := Nat) ⟨0, 1, 2, 3, 4, 5⟩ ⟨6, 7, 8, 9, 10, 11⟩
    (some 42) [("boom", fun _ => Except.error 3)] (by simp)
  refine ⟨?_, ?_⟩
  · exact h.1 ("boom", fun _ => Except.error 3) (List.mem_singleton.mpr rfl)
  · rw [h.2 "bot" (by simp)]
    rfl

/-- `cleaned in ("quit", "exit", "exit()")` (line 358). -/
def isQuitKeyword (s : List Char) : Bool :=
  s == "quit".toList || s == "exit".toList || s == "exit()".toList

/-- Outcome of running one compiled REPL input (lines 386-391, after
`maybe_await`): the execution raised, or completed with `result`
(`none` = Python `None`).  Captured stdout only affects the delivered
text, not the session state, and is not modelled. -/
inductive RunOutcome (V : Type)
  | raised
  | completed (result : Option V)
  deriving DecidableEq

/-- How one REPL loop iteration ended: `continued` re-blocks on the next
message, `exited` returned out of the command. -/
inductive ReplAction
  | continued
  | exited
  deriving DecidableEq

/-- State after one REPL loop iteration: the loop action, the channel's
entry in `self.sessions` (`none` = deleted), the session environment, and
the cog-wide `self._last_result`. -/
structure ReplIterResult (V E : Type) where
  action : ReplAction
  session : Option Bool
  env : List (String × DevEnvVal V E)
  cogLast : Option V
  deriving DecidableEq

/-- The environment a freshly opened REPL session starts with
(lines 334-336): `get_environment`, then `env["__builtins__"] =
__builtins__`, then `env["_"] = None` — discarding the cog-wide last
result that `get_environment` had bound to `"_"`. -/
def replOpenEnv {V E : Type} (m : DevModules V) (c : DevCtx V) (cogLast : Option V)
    (exts : List (String × (DevCtx V → Except E V))) : List (String × DevEnvVal V E) :=
  dictSet (dictSet (get_environment m c cogLast exts) "__builtins__" (.val m.builtinsObj))
    "_" .pynone

/-- One iteration of the REPL `while True` loop body (lines 343-410),
entered with a received message passing the backtick predicate.
`running` is the current value of `self.sessions[channel]`; `respVal`
the message object (`env["message"] = response`, line 380);
`evalCompiles` / `execCompiles` whether `async_compile` of the cleaned
input succeeds in `"eval"` / `"exec"` mode (the external compiler
capability); `outcome` the result of executing the compiled code.
The iteration order is exactly the source's: the pause short-circuit
(line 353) runs *before* the quit-keyword check (line 358); quit deletes
the session and returns; a failed exec-compile reports the syntax error
and continues with the environment untouched; otherwise `env["message"]`
is set, the code runs, and only a completed, non-`None` result is
written to `env["_"]` (line 399).  `self._last_result` (`cogLast`) is
returned unchanged on every path: the loop never assigns it. -/
def replStep {V E : Type} (running : Bool) (env : List (String × DevEnvVal V E))
    (cogLast : Option V) (content : List Char) (respVal : V)
    (evalCompiles execCompiles : Bool) (outcome : RunOutcome V) : ReplIterResult V E :=
  if running = false then ⟨.continued, some running, env, cogLast⟩
  else
    if isQuitKeyword (cleanup_code content) then ⟨.exited, none, env, cogLast⟩
    else
      if ((cleanup_code content).count '\n' == 0 && evalCompiles) || execCompiles then
        match outcome with
        | .raised => ⟨.continued, some running, dictSet env "message" (.val respVal), cogLast⟩
        | .completed none =>
          ⟨.continued, some running, dictSet env "message" (.val respVal), cogLast⟩
        | .completed (some r) =>
          ⟨.continued, some running,
           dictSet (dictSet env "message" (.val respVal)) "_" (.val r), cogLast⟩
      else ⟨.continued, some running, env, cogLast⟩

/-- Counterexample for claim C2 as stated: while the session is paused
(`sessions[channel] = False`), a message whose cleaned content is
`"quit"` hits the pause short-circuit (line 353) *before* the quit check
(line 358): the iteration merely continues, the session entry survives
(still `some false`, not Absent), and the loop does not end. -/
theorem repl_quit_while_paused_cex :
    isQuitKeyword (cleanup_code "`quit`".toList) = true
    ∧ (replStep (V := Nat) (E := Nat) false [] none "`quit`".toList 0 true true
        (.completed none)).session = some false
    ∧ (replStep (V := Nat) (E := Nat) false [] none "`quit`".toList 0 true true
        (.completed none)).action = .continued := by
  decide

/-- Claim C2 (corrected): the pause short-circuit precedes the quit
check.  While paused, every iteration — quit keywords included — is
discarded with the session entry, environment and cog state unchanged;
the quit keywords remove the session and end the loop only while the
session is Running. -/
theorem repl_pause_precedes_quit {V E : Type} (env : List (String × DevEnvVal V E))
    (cogLast : Option V) (content : List Char) (respVal : V) (ec xc : Bool)
    (outcome : RunOutcome V) :
    replStep false env cogLast content respVal ec xc outcome =
      ⟨.continued, some false, env, cogLast⟩
    ∧ (isQuitKeyword (cleanup_code content) = true →
        replStep true env cogLast content respVal ec xc outcome =
          ⟨.exited, none, env, cogLast⟩) := by
  constructor
  · rfl
  · intro h
    unfold replStep
    rw [if_neg (by simp), if_pos h]

/-- Witness for `repl_pause_precedes_quit` at the concrete input
`"`exit()`"` (which cleans to the quit keyword `"exit()"`). -/
theorem repl_pause_precedes_quit_witness :
    replStep (V := Nat) (E := Nat) false [] none "`exit()`".toList 0 true true .raised =
      ⟨.continued, some false, [], none⟩
    ∧ replStep (V := Nat) (E := Nat) true [] none "`exit()`".toList 0 true true .raised =
      ⟨.exited, none, [], none⟩ :=
  ⟨(repl_pause_precedes_quit [] none "`exit()`".toList 0 true true .raised).1,
   (repl_pause_precedes_quit [] none "`exit()`".toList 0 true true .raised).2 (by decide)⟩

/-- Claim C10 (confirmed): opening a REPL session binds `"_"` to `None`
in the session environment (line 336), discarding whatever cog-wide last
result `get_environment` had placed there; every loop iteration returns
`self._last_result` unchanged (the loop never assigns it); and a
completed non-`None` evaluation writes its result to the session
environment's `"_"` binding only (line 399). -/
theorem repl_lastresult_frame {V E : Type} (m : DevModules V) (c : DevCtx V)
    (cogLast : Option V) (exts : List (String × (DevCtx V → Except E V))) :
    dictGet (replOpenEnv m c cogLast exts) "_" = some DevEnvVal.pynone
    ∧ (∀ (running : Bool) (env : List (String × DevEnvVal V E)) (content : List Char)
        (respVal : V) (ec xc : Bool) (outcome : RunOutcome V),
        (replStep running env cogLast content respVal ec xc outcome).cogLast = cogLast)
    ∧ (∀ (env : List (String × DevEnvVal V E)) (content : List Char) (respVal : V) (r : V),
        isQuitKeyword (cleanup_code content) = false →
        dictGet ((replStep true env cogLast content respVal true true
            (.completed (some r))).env) "_" = some (DevEnvVal.val r)) := by
  refine ⟨?_, ?_, ?_⟩
  · exact dictGet_dictSet_self _ _ _
  · intro running env content respVal ec xc outcome
    unfold replStep
    split
    · rfl
    · split
      · rfl
      · split
        · cases outcome with
          | raised => rfl
          | completed r => cases r <;> rfl
        · rfl
  · intro env content respVal r h
    unfold replStep
    rw [if_neg (by simp), if_neg (by simp [h]), if_pos (by simp)]
    exact dictGet_dictSet_self _ _ _

/-- Witness for `repl_lastresult_frame` at concrete inputs: a paused-free
running session, content `"`1+1`"` (not a quit keyword), completed
result `2`. -/
theorem repl_lastresult_frame_witness :
    dictGet (replOpenEnv (V := Nat) (E := Nat) ⟨0, 1, 2, 3, 4, 5⟩ ⟨6, 7, 8, 9, 10, 11⟩
        (some 42) []) "_" = some DevEnvVal.pynone
    ∧ (replStep (V := Nat) (E := Nat) true [] (some 42) "`1+1`".toList 0 true true
        (.completed (some 2))).cogLast = some 42
    ∧ dictGet ((replStep (V := Nat) (E := Nat) true [] (some 42) "`1+1`".toList 0 true true
        (.completed (some 2))).env) "_" = some (DevEnvVal.val 2) := by
  have h := repl_lastresult_frame (V := Nat) (E := Nat) ⟨0, 1, 2, 3, 4, 5⟩
    ⟨6, 7, 8, 9, 10, 11⟩ (some 42) []
  exact ⟨h.1, h.2.1 true [] "`1+1`".toList 0 true true (.completed (some 2)),
    h.2.2 [] "`1+1`".toList 0 2 (by decide)⟩

/-- Outcome of one `debug` / `eval` invocation: the compile failed with
`SyntaxError`, the execution raised, or it completed with `result`
(`none` = Python `None`). -/
inductive ExecOutcome (V : Type)
  | syntaxError
  | raised
  | completed (result : Option V)
  deriving DecidableEq

/-- Effect of one `debug` invocation on `self._last_result`
(lines 241-253): both `except` arms `return` before the assignment; a
completed run executes `self._last_result = result` *unconditionally*,
`None` included. -/
def debugLastResult {V : Type} (prev : Option V) : ExecOutcome V → Option V
  | .syntaxError => prev
  | .raised => prev
  | .completed r => r

/-- Effect of one `eval` invocation on `self._last_result`
(lines 287-305): the `SyntaxError` arm returns early, an execution
failure skips the update, and line 304 guards the assignment with
`if result is not None`. -/
def evalLastResult {V : Type} (prev : Option V) : ExecOutcome V → Option V
  | .syntaxError => prev
  | .raised => prev
  | .completed none => prev
  | .completed (some r) => some r

/-- Counterexample for claim C7 as stated: a `debug` invocation that
completes with result `None` overwrites `self._last_result` with `None`
(line 253 is unconditional), so a previous value `some 5` does not
persist. -/
theorem debug_none_overwrites_cex :
    debugLastResult (V := Nat) (some 5) (.completed none) = none
    ∧ (none : Option Nat) ≠ some 5 := by
  decide

/-- Claim C7 (corrected): `SyntaxError` and runtime failures leave the
last-result slot unchanged on every path, and `eval` updates it only on
a completed non-`None` result — but `debug` overwrites the slot with
*any* completed result, `None` included; in the REPL loop, a raised or
`None`-completed iteration leaves the session's `"_"` binding unchanged
(and `self._last_result` is never touched there). -/
theorem lastresult_update_policy {V E : Type} (prev : Option V) (r : Option V) (v : V) :
    debugLastResult prev .syntaxError = prev
    ∧ debugLastResult prev .raised = prev
    ∧ debugLastResult prev (.completed r) = r
    ∧ evalLastResult prev .syntaxError = prev
    ∧ evalLastResult prev .raised = prev
    ∧ evalLastResult prev (.completed none) = prev
    ∧ evalLastResult prev (.completed (some v)) = some v
    ∧ (∀ (running : Bool) (env : List (String × DevEnvVal V E)) (content : List Char)
        (respVal : V) (ec xc : Bool),
        dictGet ((replStep running env prev content respVal ec xc .raised).env) "_" =
          dictGet env "_"
        ∧ dictGet ((replStep running env prev content respVal ec xc
            (.completed none)).env) "_" = dictGet env "_") := by
  refine ⟨rfl, rfl, rfl, rfl, rfl, rfl, rfl, ?_⟩
  intro running env content respVal ec xc
  constructor <;>
    · unfold replStep
      split
      · rfl
      · split
        · rfl
        · split
          · exact dictGet_dictSet_ne env _ (by decide)
          · rfl
